import Mathlib

/-!
Verification of the pyTranscriber REST API job lifecycle (src/api_server.py).

The Python module is shallowly embedded as pure Lean functions over an
explicit system state.  Timestamps are naturals (seconds), progress values
are integers (Python ints), dictionaries are association lists in insertion
order (Python dicts preserve insertion order), and the two transcription
backends — external collaborators living outside this module — are
abstracted by an outcome oracle describing which branch of the wrapper code
their call takes (raise, cancellation sentinel -1, falsy result, or truthy
result together with the on-disk existence of the two declared output
files).  The background thread started by the upload handler is modelled by
splitting process_transcription_job into its two store interactions: the
entry (membership check and the transition to processing, lines 203-207)
and the finalization (lines 209-237); progress-callback invocations
interleave between them.
-/

namespace PyTranscriber

/-- Job status strings of TranscriptionJob: pending, processing, completed,
failed (api_server.py line 74). -/
inductive JobStatus
  | pending
  | processing
  | completed
  | failed
deriving DecidableEq

/-- Job identifiers, get_next_job_id (lines 101-105): the string
"job_{job_counter}_{uuid4.hex[:8]}" is modelled by its two variable parts,
the incremented global counter and the 8-character uuid fragment.  Two ids
with different counters denote different strings. -/
structure JobId where
  counter : Nat
  uuidPart : String
deriving DecidableEq

/-- The TranscriptionJob record (lines 66-79).  start_time and end_time are
datetime values, modelled as natural-number timestamps. -/
structure TranscriptionJob where
  job_id : JobId
  filename : String
  engine : String
  language : String
  status : JobStatus
  progress : Int
  start_time : Nat
  end_time : Option Nat
  error_message : Option String
  output_files : List (String × String)
deriving DecidableEq

/-- The process-wide mutable state: the transcription_jobs dict (insertion
ordered), the job_counter global, and the contents of the two working
directories as (path, creation-time) listings.  The history field is a
ghost variable recording every job id ever handed out by get_next_job_id;
it never influences behaviour and exists to state uniqueness across the
process lifetime. -/
structure SysState where
  jobs : List TranscriptionJob
  job_counter : Nat
  history : List JobId
  upload_files : List (String × Nat)
  output_dir_files : List (String × Nat)
deriving DecidableEq

/-- State at interpreter start: empty job dict, counter 0, empty folders. -/
def initState : SysState := ⟨[], 0, [], [], []⟩

def UPLOAD_FOLDER : String := "uploads"

def OUTPUT_FOLDER : String := "outputs"

/-- ALLOWED_EXTENSIONS audio set (line 53). -/
def ALLOWED_AUDIO : List String := ["mp3", "wav", "m4a", "flac", "ogg", "aac"]

/-- ALLOWED_EXTENSIONS video set (line 54). -/
def ALLOWED_VIDEO : List String := ["mp4", "avi", "mkv", "mov", "wmv", "flv", "webm", "ogv"]

/-- ASCII lowercasing of one character, the effect of Python str.lower on
the ASCII range. -/
def lowerChar (c : Char) : Char :=
  if 65 ≤ c.toNat ∧ c.toNat ≤ 90 then Char.ofNat (c.toNat + 32) else c

/-- Python str.lower, modelled on the ASCII range. -/
def strLower (s : String) : String := ⟨s.data.map lowerChar⟩

/-- The characters after the last occurrence of sep, or none when sep does
not occur. -/
def afterLast (sep : Char) : List Char → Option (List Char)
  | [] => none
  | c :: cs =>
    match afterLast sep cs with
    | some e => some e
    | none => if c = sep then some cs else none

/-- The characters before the last occurrence of sep, or none when sep does
not occur. -/
def beforeLast (sep : Char) : List Char → Option (List Char)
  | [] => none
  | c :: cs =>
    match beforeLast sep cs with
    | some pre => some (c :: pre)
    | none => if c = sep then some [] else none

/-- filename.rsplit(".", 1)[1].lower() if "." in filename else ""
(allowed_file, line 98). -/
def fileExt (filename : String) : String :=
  match afterLast '.' filename.data with
  | some e => ⟨e.map lowerChar⟩
  | none => ""

/-- allowed_file (lines 96-99): the lowercased extension must belong to the
audio or the video allow-list. -/
def allowed_file (filename : String) : Bool :=
  ALLOWED_AUDIO.contains (fileExt filename) || ALLOWED_VIDEO.contains (fileExt filename)

/-- pathlib Path(p).stem: the last path component without its final
extension (a leading dot alone is not an extension). -/
def pathStem (p : String) : String :=
  let name := match afterLast '/' p.data with
    | some t => t
    | none => p.data
  match beforeLast '.' name with
  | some pre => if pre = [] then ⟨name⟩ else ⟨pre⟩
  | none => ⟨name⟩

/-- get_next_job_id (lines 101-105): increments the global job_counter and
returns the new counter together with the formatted id. -/
def get_next_job_id (counter : Nat) (uuidHex : String) : Nat × JobId :=
  (counter + 1, ⟨counter + 1, uuidHex⟩)

/-- transcription_jobs[job_id] lookup: first (and, in reachable states,
only) record with the given id. -/
def findJob (s : SysState) (jid : JobId) : Option TranscriptionJob :=
  s.jobs.find? (fun j => decide (j.job_id = jid))

/-- Field mutation of the record stored under jid, leaving the rest of the
dict intact. -/
def updateJob (s : SysState) (jid : JobId) (f : TranscriptionJob → TranscriptionJob) : SysState :=
  { s with jobs := s.jobs.map (fun j => if j.job_id = jid then f j else j) }

/-- progress_callback (lines 107-113): the inner callback bound to job_id.
If the id is still registered the progress field is overwritten with the
reported value; otherwise nothing happens.  The task label is only printed. -/
def progress_callback (s : SysState) (jid : JobId) (task : String) (p : Int) : SysState :=
  if (findJob s jid).isSome then
    updateJob s jid (fun j => { j with progress := p })
  else s

/-- Branch oracle for one backend call inside transcribe_with_autosub or
transcribe_with_whisper: the try block raises somewhere (message msg), the
engine returns the cancellation sentinel -1, the engine returns a falsy
result, or the engine returns a truthy result and the two declared output
files do or do not exist on disk afterwards. -/
inductive EngineOutcome
  | raises (msg : String)
  | cancelled
  | failure
  | success (srtExists : Bool) (txtExists : Bool)
deriving DecidableEq

/-- transcribe_with_autosub (lines 115-157): returns (success, message,
output_files).  The declared outputs are OUTPUT_FOLDER/<stem>.srt and
OUTPUT_FOLDER/<stem>.txt; on a truthy engine result the two existence
checks run in order, and only when both pass does the function return
success with the two-entry output dict. -/
def transcribe_with_autosub (file_path : String) (outcome : EngineOutcome) :
    Bool × String × List (String × String) :=
  let base_name := pathStem file_path
  let output_srt := OUTPUT_FOLDER ++ "/" ++ base_name ++ ".srt"
  let output_txt := OUTPUT_FOLDER ++ "/" ++ base_name ++ ".txt"
  match outcome with
  | .raises msg => (false, "Autosub transcription failed: " ++ msg, [])
  | .cancelled => (false, "Transcription was cancelled", [])
  | .failure => (false, "Failed to generate subtitles", [])
  | .success srtE txtE =>
    if !srtE then (false, "SRT file was not created", [])
    else if !txtE then (false, "TXT file was not created", [])
    else (true, "Transcription completed successfully",
      [("srt_file", output_srt), ("txt_file", output_txt)])

/-- transcribe_with_whisper (lines 159-199): same shape as the autosub
wrapper with the whisper error prefix. -/
def transcribe_with_whisper (file_path : String) (outcome : EngineOutcome) :
    Bool × String × List (String × String) :=
  let base_name := pathStem file_path
  let output_srt := OUTPUT_FOLDER ++ "/" ++ base_name ++ ".srt"
  let output_txt := OUTPUT_FOLDER ++ "/" ++ base_name ++ ".txt"
  match outcome with
  | .raises msg => (false, "Whisper transcription failed: " ++ msg, [])
  | .cancelled => (false, "Transcription was cancelled", [])
  | .failure => (false, "Failed to generate subtitles", [])
  | .success srtE txtE =>
    if !srtE then (false, "SRT file was not created", [])
    else if !txtE then (false, "TXT file was not created", [])
    else (true, "Transcription completed successfully",
      [("srt_file", output_srt), ("txt_file", output_txt)])

/-- Entry of process_transcription_job (lines 203-207): return silently when
the id is gone, otherwise set status to processing. -/
def dispatchBegin (s : SysState) (jid : JobId) : SysState :=
  if (findJob s jid).isSome then
    updateJob s jid (fun j => { j with status := .processing })
  else s

/-- The engine-selection block of process_transcription_job (lines
210-222): autosub and whisper dispatch to their wrappers, any other engine
string fails without calling a backend. -/
def runEngine (engine file_path : String) (outcome : EngineOutcome) :
    Bool × String × List (String × String) :=
  if engine = "autosub" then transcribe_with_autosub file_path outcome
  else if engine = "whisper" then transcribe_with_whisper file_path outcome
  else (false, "Unknown transcription engine: " ++ engine, [])

/-- Finalization of process_transcription_job (lines 209-237): pick the
wrapper named by the engine field (unknown engines fail without calling a
backend), then on success set status completed, store the output dict, set
progress 100 and end_time; on failure set status failed, store the message
in error_message and set end_time.  A missing id means the record was
deleted mid-flight: the Python code then mutates an object no longer in the
dict, so the store is unchanged.  On success the two artifact files written
by the engine are recorded in the output directory listing. -/
def dispatchEnd (s : SysState) (jid : JobId) (outcome : EngineOutcome) (now : Nat) : SysState :=
  match findJob s jid with
  | none => s
  | some job =>
    let r := runEngine job.engine job.filename outcome
    if r.1 then
      let s' := updateJob s jid (fun j =>
        { j with status := .completed, output_files := r.2.2, progress := 100,
                 end_time := some now })
      { s' with output_dir_files := s'.output_dir_files ++ r.2.2.map (fun kv => (kv.2, now)) }
    else
      updateJob s jid (fun j =>
        { j with status := .failed, error_message := some r.2.1, end_time := some now })

/-- The multipart form data of one POST /transcribe request: presence of the
file part, the client-supplied filename, and the three optional form
fields. -/
structure UploadRequest where
  hasFile : Bool
  filename : String
  engineField : Option String
  languageField : Option String
  modelField : Option String
deriving DecidableEq

/-- Observable result of the transcribe_file handler: HTTP status code, the
state after the request, the issued job id (the 202 branch only), and the
values of the engine, language and model local variables when the handler
reached parameter parsing (lines 269-271). -/
structure TranscribeResponse where
  code : Nat
  state : SysState
  jobId : Option JobId
  engineUsed : Option String
  languageUsed : Option String
  modelUsed : Option String
deriving DecidableEq

/-- transcribe_file, POST /transcribe (lines 248-298).  Checks run in source
order: file part present, filename non-empty, allowed_file, then parameter
parsing with defaults whisper/en/base and lowercasing of the engine, then
engine validation, then upload save, job creation in pending state, and the
202 response.  The werkzeug secure_filename sanitizer is external string
cleanup and is not modelled; uuidHex stands for the uuid4().hex fragments
and now for datetime.now(). -/
def transcribe_file (s : SysState) (req : UploadRequest) (uuidHex : String) (now : Nat) :
    TranscribeResponse :=
  if !req.hasFile then
    ⟨400, s, none, none, none, none⟩
  else if req.filename = "" then
    ⟨400, s, none, none, none, none⟩
  else if !allowed_file req.filename then
    ⟨400, s, none, none, none, none⟩
  else
    let engine := strLower (req.engineField.getD "whisper")
    let language := req.languageField.getD "en"
    let model := req.modelField.getD "base"
    if engine ≠ "autosub" ∧ engine ≠ "whisper" then
      ⟨400, s, none, some engine, some language, some model⟩
    else
      let file_path := UPLOAD_FOLDER ++ "/" ++ uuidHex ++ "_" ++ req.filename
      let next := get_next_job_id s.job_counter uuidHex
      let job : TranscriptionJob :=
        ⟨next.2, file_path, engine, language, .pending, 0, now, none, none, []⟩
      ⟨202,
        { jobs := s.jobs ++ [job],
          job_counter := next.1,
          history := s.history ++ [next.2],
          upload_files := s.upload_files ++ [(file_path, now)],
          output_dir_files := s.output_dir_files },
        some next.2, some engine, some language, some model⟩

/-- GET /status/<job_id> (lines 300-306): 404 on an unknown id, otherwise
200 with the record. -/
def get_job_status (s : SysState) (jid : JobId) : Nat × Option TranscriptionJob :=
  match findJob s jid with
  | none => (404, none)
  | some job => (200, some job)

/-- GET /jobs (lines 332-339): every record in insertion order with the
total count. -/
def list_jobs (s : SysState) : List TranscriptionJob × Nat :=
  (s.jobs, s.jobs.length)

/-- Lookup of output_files[kind_file], Python dict membership plus
indexing. -/
def lookupOutput (outputs : List (String × String)) (key : String) : Option String :=
  (outputs.find? (fun kv => decide (kv.1 = key))).map (fun kv => kv.2)

/-- GET /download/<job_id>/<file_type> (lines 308-330).  fsExists stands
for os.path.exists at serving time.  Result: HTTP code and the path served
by send_file when the code is 200. -/
def download_file (s : SysState) (jid : JobId) (file_type : String)
    (fsExists : String → Bool) : Nat × Option String :=
  match findJob s jid with
  | none => (404, none)
  | some job =>
    if job.status ≠ .completed then (400, none)
    else if file_type ≠ "srt" ∧ file_type ≠ "txt" then (400, none)
    else
      match lookupOutput job.output_files (file_type ++ "_file") with
      | none => (404, none)
      | some file_path =>
        if fsExists file_path then (200, some file_path) else (404, none)

/-- DELETE /jobs/<job_id> (lines 341-367): 404 on an unknown id; otherwise
remove the output files and the input file from the directory listings and
drop the record from the dict. -/
def delete_job (s : SysState) (jid : JobId) : Nat × SysState :=
  match findJob s jid with
  | none => (404, s)
  | some job =>
    let outPaths := job.output_files.map (fun kv => kv.2)
    (200,
      { jobs := s.jobs.filter (fun j => !decide (j.job_id = jid)),
        job_counter := s.job_counter,
        history := s.history,
        upload_files := s.upload_files.filter (fun f => !decide (f.1 = job.filename)),
        output_dir_files := s.output_dir_files.filter (fun f => !outPaths.contains f.1) })

/-- File-age test of cleanup_old_files (lines 383-384): the file is removed
when its age in seconds strictly exceeds the maximum. -/
def fileOld (now maxAgeSeconds : Nat) (f : String × Nat) : Bool :=
  decide (maxAgeSeconds < now - f.2)

/-- Record-age test of cleanup_old_files (line 393): end_time is set and
its age in seconds strictly exceeds the maximum. -/
def jobOld (now maxAgeSeconds : Nat) (j : TranscriptionJob) : Bool :=
  match j.end_time with
  | some t => decide (maxAgeSeconds < now - t)
  | none => false

/-- POST /cleanup body (lines 369-404), with the local constant
max_age_hours generalized to a maximum age in seconds (the source fixes it
to 24 hours; the spec names that value the default).  Sweeps both directory
listings, then the job dict, and returns the new state with the counts of
files and records removed.  Per-file OSError skipping (lines 387-388) is
the no-failure path here. -/
def cleanup_core (s : SysState) (now : Nat) (maxAgeSeconds : Nat) : SysState × Nat × Nat :=
  let removedUploads := s.upload_files.filter (fileOld now maxAgeSeconds)
  let removedOutputs := s.output_dir_files.filter (fileOld now maxAgeSeconds)
  let jobs_to_remove := s.jobs.filter (jobOld now maxAgeSeconds)
  (⟨s.jobs.filter (fun j => !jobOld now maxAgeSeconds j),
    s.job_counter,
    s.history,
    s.upload_files.filter (fun f => !fileOld now maxAgeSeconds f),
    s.output_dir_files.filter (fun f => !fileOld now maxAgeSeconds f)⟩,
   removedUploads.length + removedOutputs.length,
   jobs_to_remove.length)

/-- cleanup_old_files as served by POST /cleanup: max_age_hours = 24
(line 375). -/
def cleanup_old_files (s : SysState) (now : Nat) : SysState × Nat × Nat :=
  cleanup_core s now (24 * 3600)

/-- States reachable from interpreter start through the HTTP operations and
the background execution steps they spawn.  The two dispatch rules carry
the scheduling discipline of the source: the worker thread for a job is
started exactly once, at creation time, so its entry only ever sees that
job pending (or already deleted) and its finalization only ever sees it
processing (or already deleted). -/
inductive Reachable : SysState → Prop
  | init : Reachable initState
  | create (s : SysState) (req : UploadRequest) (uuidHex : String) (now : Nat) :
      Reachable s → Reachable (transcribe_file s req uuidHex now).state
  | dBegin (s : SysState) (jid : JobId) :
      Reachable s →
      (∀ j ∈ s.jobs, j.job_id = jid → j.status = .pending) →
      Reachable (dispatchBegin s jid)
  | dEnd (s : SysState) (jid : JobId) (outcome : EngineOutcome) (now : Nat) :
      Reachable s →
      (∀ j ∈ s.jobs, j.job_id = jid → j.status = .processing) →
      Reachable (dispatchEnd s jid outcome now)
  | progress (s : SysState) (jid : JobId) (task : String) (p : Int) :
      Reachable s → Reachable (progress_callback s jid task p)
  | delete (s : SysState) (jid : JobId) :
      Reachable s → Reachable (delete_job s jid).2
  | cleanup (s : SysState) (now : Nat) :
      Reachable s → Reachable (cleanup_old_files s now).1

/-! ### Invariant machinery -/

/-- Per-record invariant of the job state machine: the output mapping is
populated exactly in the completed state (and then carries exactly the two
artifact keys), the error message exactly in the failed state, and the
finish timestamp exactly in a terminal state. -/
def JobInv (j : TranscriptionJob) : Prop :=
  (j.output_files ≠ [] ↔ j.status = .completed) ∧
  (j.error_message.isSome = true ↔ j.status = .failed) ∧
  (j.end_time.isSome = true ↔ (j.status = .completed ∨ j.status = .failed)) ∧
  (j.status = .completed → j.output_files.map Prod.fst = ["srt_file", "txt_file"])

/-- Store invariant: every registered record satisfies the per-record
invariant, and every id ever issued (hence also every registered one) has
its counter bounded by the current global counter. -/
def StateInv (s : SysState) : Prop :=
  (∀ j ∈ s.jobs, JobInv j) ∧
  (∀ j ∈ s.jobs, j.job_id.counter ≤ s.job_counter) ∧
  (∀ jid ∈ s.history, jid.counter ≤ s.job_counter)

theorem stateInv_init : StateInv initState := by
  refine ⟨?_, ?_, ?_⟩ <;> intro j hj <;> cases hj

theorem jobInv_not_terminal {j : TranscriptionJob} (h : JobInv j)
    (hc : j.status ≠ .completed) (hf : j.status ≠ .failed) :
    j.output_files = [] ∧ j.error_message = none ∧ j.end_time = none := by
  obtain ⟨h1, h2, h3, _⟩ := h
  refine ⟨?_, ?_, ?_⟩
  · by_contra hne
    exact hc (h1.mp hne)
  · cases he : j.error_message with
    | none => rfl
    | some m => exact absurd (h2.mp (by simp [he])) hf
  · cases he : j.end_time with
    | none => rfl
    | some t =>
      rcases h3.mp (by simp [he]) with h | h
      · exact absurd h hc
      · exact absurd h hf

theorem find?_map_update (l : List TranscriptionJob) (jid : JobId)
    (f : TranscriptionJob → TranscriptionJob) (hf : ∀ j, (f j).job_id = j.job_id) :
    (l.map (fun j => if j.job_id = jid then f j else j)).find?
        (fun j => decide (j.job_id = jid)) =
      (l.find? (fun j => decide (j.job_id = jid))).map f := by
  induction l with
  | nil => rfl
  | cons a l ih =>
    by_cases h : a.job_id = jid
    · rw [List.map_cons, if_pos h, List.find?_cons_of_pos, List.find?_cons_of_pos]
      · rfl
      · exact decide_eq_true h
      · exact decide_eq_true (by rw [hf]; exact h)
    · rw [List.map_cons, if_neg h, List.find?_cons_of_neg, List.find?_cons_of_neg]
      · exact ih
      · simp [h]
      · simp [h]

theorem findJob_updateJob (s : SysState) (jid : JobId)
    (f : TranscriptionJob → TranscriptionJob) (hf : ∀ j, (f j).job_id = j.job_id) :
    findJob (updateJob s jid f) jid = (findJob s jid).map f :=
  find?_map_update s.jobs jid f hf

theorem find?_append_last {α : Type} (p : α → Bool) (l : List α) (x : α)
    (hl : ∀ a ∈ l, p a = false) (hx : p x = true) :
    (l ++ [x]).find? p = some x := by
  induction l with
  | nil => simp [List.find?, hx]
  | cons a l ih =>
    rw [List.cons_append, List.find?_cons_of_neg]
    · exact ih (fun b hb => hl b (List.mem_cons_of_mem a hb))
    · simp [hl a (List.mem_cons_self a l)]

theorem runEngine_success_outputs (e fp : String) (oc : EngineOutcome)
    (h : (runEngine e fp oc).1 = true) :
    (runEngine e fp oc).2.2.map Prod.fst = ["srt_file", "txt_file"] ∧
      (runEngine e fp oc).2.2 ≠ [] := by
  unfold runEngine transcribe_with_autosub transcribe_with_whisper at *
  split_ifs at h ⊢ <;>
    rcases oc with msg | _ | _ | ⟨se, te⟩ <;>
      first
        | (cases se <;> cases te <;> simp_all)
        | simp_all

theorem runEngine_success_iff (e fp : String) (oc : EngineOutcome)
    (he : e = "autosub" ∨ e = "whisper") :
    (runEngine e fp oc).1 = true ↔ oc = .success true true := by
  unfold runEngine transcribe_with_autosub transcribe_with_whisper
  rcases he with he | he <;> subst he <;>
    rcases oc with msg | _ | _ | ⟨se, te⟩ <;>
      first
        | (cases se <;> cases te <;> simp_all)
        | simp_all

theorem runEngine_raises (e fp msg : String)
    (he : e = "autosub" ∨ e = "whisper") :
    (runEngine e fp (.raises msg)).1 = false ∧
      ∃ p, (runEngine e fp (.raises msg)).2.1 = p ++ msg := by
  rcases he with he | he <;> subst he
  · exact ⟨rfl, "Autosub transcription failed: ", rfl⟩
  · exact ⟨rfl, "Whisper transcription failed: ", rfl⟩

theorem stateInv_create (s : SysState) (req : UploadRequest) (uuidHex : String) (now : Nat)
    (h : StateInv s) : StateInv (transcribe_file s req uuidHex now).state := by
  obtain ⟨hJ, hC, hH⟩ := h
  unfold transcribe_file
  dsimp only
  split_ifs with h1 h2 h3 h4
  · exact ⟨hJ, hC, hH⟩
  · exact ⟨hJ, hC, hH⟩
  · exact ⟨hJ, hC, hH⟩
  · exact ⟨hJ, hC, hH⟩
  · refine ⟨?_, ?_, ?_⟩
    · intro j hj
      rcases List.mem_append.mp hj with hj | hj
      · exact hJ j hj
      · rw [List.mem_singleton] at hj
        subst hj
        simp [JobInv]
    · intro j hj
      rcases List.mem_append.mp hj with hj | hj
      · exact Nat.le_trans (hC j hj) (Nat.le_succ _)
      · rw [List.mem_singleton] at hj
        subst hj
        exact Nat.le_refl _
    · intro jid hjid
      rcases List.mem_append.mp hjid with hjid | hjid
      · exact Nat.le_trans (hH jid hjid) (Nat.le_succ _)
      · rw [List.mem_singleton] at hjid
        subst hjid
        exact Nat.le_refl _

theorem stateInv_dBegin (s : SysState) (jid : JobId) (h : StateInv s)
    (hg : ∀ j ∈ s.jobs, j.job_id = jid → j.status = .pending) :
    StateInv (dispatchBegin s jid) := by
  obtain ⟨hJ, hC, hH⟩ := h
  unfold dispatchBegin
  split_ifs with hs
  · refine ⟨?_, ?_, hH⟩
    · intro j' hj'
      rcases List.mem_map.mp hj' with ⟨j, hj, rfl⟩
      by_cases hid : j.job_id = jid
      · have hp := hg j hj hid
        have hnt := jobInv_not_terminal (hJ j hj) (by simp [hp]) (by simp [hp])
        rw [if_pos hid]
        refine ⟨?_, ?_, ?_, ?_⟩ <;> simp [hnt.1, hnt.2.1, hnt.2.2]
      · rw [if_neg hid]
        exact hJ j hj
    · intro j' hj'
      rcases List.mem_map.mp hj' with ⟨j, hj, rfl⟩
      by_cases hid : j.job_id = jid
      · rw [if_pos hid]
        exact hC j hj
      · rw [if_neg hid]
        exact hC j hj
  · exact ⟨hJ, hC, hH⟩

theorem stateInv_dEnd (s : SysState) (jid : JobId) (outcome : EngineOutcome) (now : Nat)
    (h : StateInv s)
    (hg : ∀ j ∈ s.jobs, j.job_id = jid → j.status = .processing) :
    StateInv (dispatchEnd s jid outcome now) := by
  obtain ⟨hJ, hC, hH⟩ := h
  unfold dispatchEnd
  split
  · exact ⟨hJ, hC, hH⟩
  · rename_i job hfind
    by_cases hr : (runEngine job.engine job.filename outcome).1 = true
    · rw [if_pos hr]
      have hout := runEngine_success_outputs job.engine job.filename outcome hr
      refine ⟨?_, ?_, hH⟩
      · intro j' hj'
        rcases List.mem_map.mp hj' with ⟨j, hj, rfl⟩
        by_cases hid : j.job_id = jid
        · have hp := hg j hj hid
          have hnt := jobInv_not_terminal (hJ j hj) (by simp [hp]) (by simp [hp])
          rw [if_pos hid]
          exact ⟨by simp [hout.2], by simp [hnt.2.1], by simp, fun _ => hout.1⟩
        · rw [if_neg hid]
          exact hJ j hj
      · intro j' hj'
        rcases List.mem_map.mp hj' with ⟨j, hj, rfl⟩
        by_cases hid : j.job_id = jid
        · rw [if_pos hid]
          exact hC j hj
        · rw [if_neg hid]
          exact hC j hj
    · rw [if_neg hr]
      refine ⟨?_, ?_, hH⟩
      · intro j' hj'
        rcases List.mem_map.mp hj' with ⟨j, hj, rfl⟩
        by_cases hid : j.job_id = jid
        · have hp := hg j hj hid
          have hnt := jobInv_not_terminal (hJ j hj) (by simp [hp]) (by simp [hp])
          rw [if_pos hid]
          exact ⟨by simp [hnt.1], by simp, by simp, by simp⟩
        · rw [if_neg hid]
          exact hJ j hj
      · intro j' hj'
        rcases List.mem_map.mp hj' with ⟨j, hj, rfl⟩
        by_cases hid : j.job_id = jid
        · rw [if_pos hid]
          exact hC j hj
        · rw [if_neg hid]
          exact hC j hj

theorem stateInv_progress (s : SysState) (jid : JobId) (task : String) (p : Int)
    (h : StateInv s) : StateInv (progress_callback s jid task p) := by
  obtain ⟨hJ, hC, hH⟩ := h
  unfold progress_callback
  split_ifs with hs
  · refine ⟨?_, ?_, hH⟩
    · intro j' hj'
      rcases List.mem_map.mp hj' with ⟨j, hj, rfl⟩
      by_cases hid : j.job_id = jid
      · rw [if_pos hid]
        exact hJ j hj
      · rw [if_neg hid]
        exact hJ j hj
    · intro j' hj'
      rcases List.mem_map.mp hj' with ⟨j, hj, rfl⟩
      by_cases hid : j.job_id = jid
      · rw [if_pos hid]
        exact hC j hj
      · rw [if_neg hid]
        exact hC j hj
  · exact ⟨hJ, hC, hH⟩

theorem stateInv_delete (s : SysState) (jid : JobId) (h : StateInv s) :
    StateInv (delete_job s jid).2 := by
  obtain ⟨hJ, hC, hH⟩ := h
  unfold delete_job
  split
  · exact ⟨hJ, hC, hH⟩
  · exact ⟨fun j hj => hJ j (List.mem_of_mem_filter hj),
      fun j hj => hC j (List.mem_of_mem_filter hj), hH⟩

theorem stateInv_cleanup_core (s : SysState) (now maxAge : Nat) (h : StateInv s) :
    StateInv (cleanup_core s now maxAge).1 := by
  obtain ⟨hJ, hC, hH⟩ := h
  exact ⟨fun j hj => hJ j (List.mem_of_mem_filter hj),
    fun j hj => hC j (List.mem_of_mem_filter hj), hH⟩

theorem reachable_inv (s : SysState) (h : Reachable s) : StateInv s := by
  induction h with
  | init => exact stateInv_init
  | create s req uuidHex now _ ih => exact stateInv_create s req uuidHex now ih
  | dBegin s jid _ hg ih => exact stateInv_dBegin s jid ih hg
  | dEnd s jid outcome now _ hg ih => exact stateInv_dEnd s jid outcome now ih hg
  | progress s jid task p _ ih => exact stateInv_progress s jid task p ih
  | delete s jid _ ih => exact stateInv_delete s jid ih
  | cleanup s now _ ih => exact stateInv_cleanup_core s now (24 * 3600) ih

/-- The effect of the finalization (lines 224-232) on the record itself,
as a function of the record: on success, completed with the output dict,
progress 100 and end_time; on failure, failed with the message and
end_time. -/
def finalizeJob (outcome : EngineOutcome) (now : Nat) (job : TranscriptionJob) :
    TranscriptionJob :=
  let r := runEngine job.engine job.filename outcome
  if r.1 then
    { job with status := .completed, output_files := r.2.2, progress := 100,
               end_time := some now }
  else
    { job with status := .failed, error_message := some r.2.1, end_time := some now }

theorem findJob_dispatchEnd (s : SysState) (jid : JobId) (outcome : EngineOutcome)
    (now : Nat) :
    findJob (dispatchEnd s jid outcome now) jid =
      (findJob s jid).map (finalizeJob outcome now) := by
  unfold dispatchEnd
  cases hfind : findJob s jid with
  | none =>
    dsimp only
    simpa using hfind
  | some job =>
    dsimp only
    by_cases hr : (runEngine job.engine job.filename outcome).1 = true
    · rw [if_pos hr]
      have : findJob (updateJob s jid (fun j =>
          { j with status := .completed,
                   output_files := (runEngine job.engine job.filename outcome).2.2,
                   progress := 100, end_time := some now })) jid =
          (findJob s jid).map (fun j =>
            { j with status := .completed,
                     output_files := (runEngine job.engine job.filename outcome).2.2,
                     progress := 100, end_time := some now }) :=
        findJob_updateJob s jid _ (fun j => rfl)
      show findJob (updateJob s jid _) jid = _
      rw [this, hfind]
      simp [finalizeJob, hr]
    · rw [if_neg hr]
      have : findJob (updateJob s jid (fun j =>
          { j with status := .failed,
                   error_message := some (runEngine job.engine job.filename outcome).2.1,
                   end_time := some now })) jid =
          (findJob s jid).map (fun j =>
            { j with status := .failed,
                     error_message := some (runEngine job.engine job.filename outcome).2.1,
                     end_time := some now }) :=
        findJob_updateJob s jid _ (fun j => rfl)
      rw [this, hfind]
      simp [finalizeJob, hr]

/-! ### Concrete states used by witnesses and counterexamples -/

/-- A valid whisper upload request used to build concrete traces. -/
def reqW : UploadRequest := ⟨true, "hello.mp3", some "whisper", some "en", some "base"⟩

/-- The id issued to the first job of the process when the uuid fragment is
abcd1234. -/
def jidW : JobId := ⟨1, "abcd1234"⟩

/-- State after one successful creation at time 100. -/
def sPending : SysState := (transcribe_file initState reqW "abcd1234" 100).state

/-- State after the worker thread entered processing. -/
def sProcessing : SysState := dispatchBegin sPending jidW

/-- State after the worker finished successfully at time 105 with both
output files present. -/
def sCompleted : SysState := dispatchEnd sProcessing jidW (.success true true) 105

/-- The concrete processing record inside sProcessing. -/
def jobProcessingW : TranscriptionJob :=
  ⟨jidW, "uploads/abcd1234_hello.mp3", "whisper", "en", .processing, 0, 100, none, none, []⟩

/-- The concrete completed record inside sCompleted. -/
def jobW : TranscriptionJob :=
  ⟨jidW, "uploads/abcd1234_hello.mp3", "whisper", "en", .completed, 100, 100, some 105, none,
    [("srt_file", "outputs/abcd1234_hello.srt"), ("txt_file", "outputs/abcd1234_hello.txt")]⟩

theorem reachable_sPending : Reachable sPending :=
  Reachable.create initState reqW "abcd1234" 100 Reachable.init

theorem reachable_sProcessing : Reachable sProcessing :=
  Reachable.dBegin sPending jidW reachable_sPending (by decide)

theorem reachable_sCompleted : Reachable sCompleted :=
  Reachable.dEnd sProcessing jidW (.success true true) 105 reachable_sProcessing (by decide)

/-! ### Claims -/

/-- C1: in every state reachable through the public operations, every job
record has a non-empty outputs mapping exactly when its status is
completed, and an error detail exactly when its status is failed. -/
theorem C1_outputs_and_error_iff_status (s : SysState) (hs : Reachable s) :
    ∀ j ∈ s.jobs,
      (j.output_files ≠ [] ↔ j.status = .completed) ∧
      (j.error_message.isSome = true ↔ j.status = .failed) := by
  intro j hj
  obtain ⟨hJ, _, _⟩ := reachable_inv s hs
  exact ⟨(hJ j hj).1, (hJ j hj).2.1⟩

theorem C1_witness :
    (jobW.output_files ≠ [] ↔ jobW.status = .completed) ∧
    (jobW.error_message.isSome = true ↔ jobW.status = .failed) :=
  C1_outputs_and_error_iff_status sCompleted reachable_sCompleted jobW (by decide)

/-- C2: after the dispatch finalization returns, the job (when still
registered) is in a terminal state — never left in processing — with
finished_at set; and for a backend fault with description msg on a known
engine, the record transitions to failed with the fault description
captured inside error_message.  No fault propagates: the finalization is a
total function into states by construction, mirroring the try/except
blocks. -/
theorem C2_dispatch_terminal_and_fault_capture (s : SysState) (jid : JobId) (now : Nat) :
    (∀ (outcome : EngineOutcome) (j' : TranscriptionJob),
      findJob (dispatchEnd s jid outcome now) jid = some j' →
      (j'.status = .completed ∨ j'.status = .failed) ∧ j'.end_time = some now) ∧
    (∀ (msg : String) (job : TranscriptionJob),
      findJob s jid = some job →
      (job.engine = "autosub" ∨ job.engine = "whisper") →
      ∃ j', findJob (dispatchEnd s jid (.raises msg) now) jid = some j' ∧
        j'.status = .failed ∧ j'.end_time = some now ∧
        ∃ p, j'.error_message = some (p ++ msg)) := by
  constructor
  · intro outcome j' hj'
    rw [findJob_dispatchEnd] at hj'
    cases hfind : findJob s jid with
    | none => rw [hfind] at hj'; cases hj'
    | some job =>
      rw [hfind] at hj'
      have hj'' : finalizeJob outcome now job = j' := by
        simpa using hj'
      subst hj''
      simp only [finalizeJob]
      split_ifs with hr
      · exact ⟨Or.inl rfl, rfl⟩
      · exact ⟨Or.inr rfl, rfl⟩
  · intro msg job hfind he
    obtain ⟨hr1, p, hp⟩ := runEngine_raises job.engine job.filename msg he
    refine ⟨finalizeJob (.raises msg) now job, ?_, ?_, ?_, p, ?_⟩
    · rw [findJob_dispatchEnd, hfind]
      rfl
    · unfold finalizeJob
      rw [if_neg (by simp [hr1])]
    · unfold finalizeJob
      rw [if_neg (by simp [hr1])]
    · unfold finalizeJob
      rw [if_neg (by simp [hr1])]
      simpa using hp

theorem C2_witness :
    ∃ j', findJob (dispatchEnd sProcessing jidW (.raises "boom") 105) jidW = some j' ∧
      j'.status = .failed ∧ j'.end_time = some 105 ∧
      ∃ p, j'.error_message = some (p ++ "boom") :=
  (C2_dispatch_terminal_and_fault_capture sProcessing jidW 105).2 "boom" jobProcessingW
    (by decide) (Or.inr (by decide))

/-- C3: for a registered job on a known engine, the finalization yields
completed exactly when the backend outcome is success with both declared
output files present on disk; for every other outcome (missing file,
error, cancellation sentinel, raised fault) it yields failed. -/
theorem C3_completed_iff_success_and_files (s : SysState) (jid : JobId)
    (outcome : EngineOutcome) (now : Nat) (job : TranscriptionJob)
    (hfind : findJob s jid = some job)
    (he : job.engine = "autosub" ∨ job.engine = "whisper") :
    (((findJob (dispatchEnd s jid outcome now) jid).map (fun j => j.status)) =
        some .completed ↔ outcome = .success true true) ∧
    (outcome ≠ .success true true →
      ((findJob (dispatchEnd s jid outcome now) jid).map (fun j => j.status)) =
        some .failed) := by
  rw [findJob_dispatchEnd, hfind]
  have hiff := runEngine_success_iff job.engine job.filename outcome he
  by_cases hr : (runEngine job.engine job.filename outcome).1 = true
  · have hoc : outcome = .success true true := hiff.mp hr
    subst hoc
    constructor
    · simp [finalizeJob, hr]
    · intro hne
      exact absurd rfl hne
  · have hoc : outcome ≠ .success true true := fun h => hr (hiff.mpr h)
    constructor
    · constructor
      · intro h
        exfalso
        revert h
        simp [finalizeJob, hr]
      · intro h
        exact absurd h hoc
    · intro _
      simp [finalizeJob, hr]

theorem C3_witness :
    (((findJob (dispatchEnd sProcessing jidW (.success true true) 105) jidW).map
        (fun j => j.status)) = some .completed ↔
      (EngineOutcome.success true true) = .success true true) ∧
    ((findJob (dispatchEnd sProcessing jidW .cancelled 105) jidW).map
        (fun j => j.status)) = some .failed :=
  ⟨(C3_completed_iff_success_and_files sProcessing jidW (.success true true) 105
      jobProcessingW (by decide) (Or.inr (by decide))).1,
   (C3_completed_iff_success_and_files sProcessing jidW .cancelled 105
      jobProcessingW (by decide) (Or.inr (by decide))).2 (by decide)⟩

/-- A request whose engine field is spelled in upper case. -/
def reqC4 : UploadRequest := ⟨true, "hello.mp3", some "WHISPER", some "en", some "base"⟩

/-- C4 counterexample: the engine field WHISPER is neither of the two known
backend variant names autosub and whisper, yet the request is accepted with
202 and a job identifier is issued, because the handler lowercases the
field before validating it.  The claim as stated demands a 400 rejection
with no identifier here. -/
theorem C4_counterexample :
    ("WHISPER" ≠ "autosub" ∧ "WHISPER" ≠ "whisper") ∧
    (transcribe_file initState reqC4 "u1" 0).code = 202 ∧
    (transcribe_file initState reqC4 "u1" 0).jobId = some ⟨1, "u1"⟩ := by
  decide

/-- C4 amended: a request whose lowercased extension is outside the
allow-list, or whose lowercased engine field is neither autosub nor
whisper, is rejected with 400, the state is unchanged, and no job
identifier is issued. -/
theorem C4_reject_no_job (s : SysState) (req : UploadRequest) (uuidHex : String)
    (now : Nat)
    (h : allowed_file req.filename = false ∨
      (strLower (req.engineField.getD "whisper") ≠ "autosub" ∧
       strLower (req.engineField.getD "whisper") ≠ "whisper")) :
    (transcribe_file s req uuidHex now).code = 400 ∧
    (transcribe_file s req uuidHex now).state = s ∧
    (transcribe_file s req uuidHex now).jobId = none := by
  unfold transcribe_file
  dsimp only
  split_ifs with h1 h2 h3 h4
  · exact ⟨rfl, rfl, rfl⟩
  · exact ⟨rfl, rfl, rfl⟩
  · exact ⟨rfl, rfl, rfl⟩
  · exact ⟨rfl, rfl, rfl⟩
  · rcases h with h | h
    · simp [h] at h3
    · exact absurd h h4

/-- A request with a disallowed extension. -/
def reqC4w : UploadRequest := ⟨true, "notes.txt", some "whisper", some "en", none⟩

theorem C4_reject_no_job_witness :
    (allowed_file "notes.txt" = false) ∧
    ((transcribe_file initState reqC4w "u1" 0).code = 400 ∧
     (transcribe_file initState reqC4w "u1" 0).state = initState ∧
     (transcribe_file initState reqC4w "u1" 0).jobId = none) :=
  ⟨by decide, C4_reject_no_job initState reqC4w "u1" 0 (Or.inl (by decide))⟩

/-- C5: a successful creation on a reachable state issues an identifier
distinct from every identifier ever issued in the process (the ghost
history), and an immediate status lookup with it answers 200 with status
pending. -/
theorem C5_fresh_id_and_pending_lookup (s : SysState) (req : UploadRequest)
    (uuidHex : String) (now : Nat) (jid : JobId) (hs : Reachable s)
    (h : (transcribe_file s req uuidHex now).jobId = some jid) :
    jid ∉ s.history ∧
    (get_job_status (transcribe_file s req uuidHex now).state jid).1 = 200 ∧
    ((get_job_status (transcribe_file s req uuidHex now).state jid).2.map
        (fun j => j.status)) = some JobStatus.pending := by
  obtain ⟨_, hC, hH⟩ := reachable_inv s hs
  unfold transcribe_file at h ⊢
  dsimp only at h ⊢
  split_ifs at h ⊢ with h1 h2 h3 h4
  rw [Option.some_inj] at h
  subst h
  have hcount : ∀ j ∈ s.jobs, decide (j.job_id = (get_next_job_id s.job_counter uuidHex).2) = false := by
    intro j hj
    have hle := hC j hj
    refine decide_eq_false ?_
    intro heq
    rw [heq] at hle
    have hle' : s.job_counter + 1 ≤ s.job_counter := hle
    omega
  refine ⟨?_, ?_⟩
  · intro hmem
    have hle := hH _ hmem
    have hle' : s.job_counter + 1 ≤ s.job_counter := hle
    omega
  · have hfind : findJob
        (⟨s.jobs ++ [⟨(get_next_job_id s.job_counter uuidHex).2,
            UPLOAD_FOLDER ++ "/" ++ uuidHex ++ "_" ++ req.filename,
            strLower (req.engineField.getD "whisper"), req.languageField.getD "en",
            .pending, 0, now, none, none, []⟩],
          (get_next_job_id s.job_counter uuidHex).1,
          s.history ++ [(get_next_job_id s.job_counter uuidHex).2],
          s.upload_files ++ [(UPLOAD_FOLDER ++ "/" ++ uuidHex ++ "_" ++ req.filename, now)],
          s.output_dir_files⟩ : SysState)
        (get_next_job_id s.job_counter uuidHex).2 =
        some ⟨(get_next_job_id s.job_counter uuidHex).2,
          UPLOAD_FOLDER ++ "/" ++ uuidHex ++ "_" ++ req.filename,
          strLower (req.engineField.getD "whisper"), req.languageField.getD "en",
          .pending, 0, now, none, none, []⟩ := by
      unfold findJob
      exact find?_append_last _ s.jobs _ hcount (by simp)
    rw [show (get_job_status _ (get_next_job_id s.job_counter uuidHex).2) =
        (200, some (⟨(get_next_job_id s.job_counter uuidHex).2,
          UPLOAD_FOLDER ++ "/" ++ uuidHex ++ "_" ++ req.filename,
          strLower (req.engineField.getD "whisper"), req.languageField.getD "en",
          .pending, 0, now, none, none, []⟩ : TranscriptionJob)) from by
      unfold get_job_status
      rw [hfind]]
    exact ⟨rfl, rfl⟩

theorem C5_witness :
    (⟨1, "abcd1234"⟩ : JobId) ∉ initState.history ∧
    (get_job_status sPending ⟨1, "abcd1234"⟩).1 = 200 ∧
    ((get_job_status sPending ⟨1, "abcd1234"⟩).2.map (fun j => j.status)) =
      some JobStatus.pending :=
  C5_fresh_id_and_pending_lookup initState reqW "abcd1234" 100 ⟨1, "abcd1234"⟩
    Reachable.init (by decide)

/-- C6 counterexample: the sweep removes only items whose age strictly
exceeds the maximum, so with maximum age zero a terminal job whose
finished_at equals the invocation time is kept — the claim that max-age
zero removes all terminal jobs fails at that input. -/
theorem C6_counterexample :
    ((findJob sCompleted jidW).map (fun j => j.status) = some .completed) ∧
    ((findJob sCompleted jidW).map (fun j => j.end_time) = some (some 105)) ∧
    (cleanup_core sCompleted 105 0).1.jobs = sCompleted.jobs ∧
    sCompleted.jobs ≠ [] := by
  decide

/-- C6 amended: one sweep invocation keeps exactly the records that are
not (terminal with finished_at strictly older than the maximum age) and
exactly the files not strictly older than it; the returned counts equal
the numbers of files and records removed; the endpoint runs the sweep with
the default 24-hour maximum age; and a maximum age at least every current
age removes nothing.  Instantiating the maximum age at zero: exactly the
terminal records finished strictly before the invocation time and the
files created strictly before it are removed. -/
theorem C6_cleanup_exact (s : SysState) (now maxAge : Nat) (hs : Reachable s) :
    (∀ j, j ∈ (cleanup_core s now maxAge).1.jobs ↔
      (j ∈ s.jobs ∧ ¬((j.status = .completed ∨ j.status = .failed) ∧
        ∃ t, j.end_time = some t ∧ maxAge < now - t))) ∧
    (∀ f, f ∈ (cleanup_core s now maxAge).1.upload_files ↔
      (f ∈ s.upload_files ∧ ¬(maxAge < now - f.2))) ∧
    (∀ f, f ∈ (cleanup_core s now maxAge).1.output_dir_files ↔
      (f ∈ s.output_dir_files ∧ ¬(maxAge < now - f.2))) ∧
    ((cleanup_core s now maxAge).2.1 + (cleanup_core s now maxAge).1.upload_files.length +
        (cleanup_core s now maxAge).1.output_dir_files.length =
      s.upload_files.length + s.output_dir_files.length) ∧
    ((cleanup_core s now maxAge).2.2 + (cleanup_core s now maxAge).1.jobs.length =
      s.jobs.length) ∧
    (cleanup_old_files s now = cleanup_core s now (24 * 3600)) ∧
    ((∀ j ∈ s.jobs, ∀ t, j.end_time = some t → now - t ≤ maxAge) →
     (∀ f ∈ s.upload_files, now - f.2 ≤ maxAge) →
     (∀ f ∈ s.output_dir_files, now - f.2 ≤ maxAge) →
     (cleanup_core s now maxAge).1 = s) := by
  obtain ⟨hJ, _, _⟩ := reachable_inv s hs
  refine ⟨?_, ?_, ?_, ?_, ?_, rfl, ?_⟩
  · intro j
    constructor
    · intro hj
      have hmem := List.mem_of_mem_filter hj
      have hkeep := List.of_mem_filter hj
      refine ⟨hmem, ?_⟩
      rintro ⟨hterm, t, het, hold⟩
      rw [Bool.not_eq_true'] at hkeep
      rw [jobOld, het] at hkeep
      simp [hold] at hkeep
    · rintro ⟨hmem, hnot⟩
      refine List.mem_filter.mpr ⟨hmem, ?_⟩
      rw [Bool.not_eq_true']
      cases het : j.end_time with
      | none => simp [jobOld, het]
      | some t =>
        have hterm : j.status = .completed ∨ j.status = .failed :=
          (hJ j hmem).2.2.1.mp (by simp [het])
        rw [jobOld, het]
        simp only [decide_eq_false_iff_not]
        intro hold
        exact hnot ⟨hterm, t, het, hold⟩
  · intro f
    constructor
    · intro hf
      refine ⟨List.mem_of_mem_filter hf, ?_⟩
      have hkeep := List.of_mem_filter hf
      rw [Bool.not_eq_true', fileOld, decide_eq_false_iff_not] at hkeep
      exact hkeep
    · rintro ⟨hmem, hnot⟩
      exact List.mem_filter.mpr ⟨hmem, by rw [Bool.not_eq_true', fileOld]; exact decide_eq_false hnot⟩
  · intro f
    constructor
    · intro hf
      refine ⟨List.mem_of_mem_filter hf, ?_⟩
      have hkeep := List.of_mem_filter hf
      rw [Bool.not_eq_true', fileOld, decide_eq_false_iff_not] at hkeep
      exact hkeep
    · rintro ⟨hmem, hnot⟩
      exact List.mem_filter.mpr ⟨hmem, by rw [Bool.not_eq_true', fileOld]; exact decide_eq_false hnot⟩
  · have hu := List.length_eq_length_filter_add (l := s.upload_files) (fileOld now maxAge)
    have ho := List.length_eq_length_filter_add (l := s.output_dir_files) (fileOld now maxAge)
    show (s.upload_files.filter (fileOld now maxAge)).length +
        (s.output_dir_files.filter (fileOld now maxAge)).length +
        (s.upload_files.filter (fun f => !fileOld now maxAge f)).length +
        (s.output_dir_files.filter (fun f => !fileOld now maxAge f)).length =
      s.upload_files.length + s.output_dir_files.length
    omega
  · have hj := List.length_eq_length_filter_add (l := s.jobs) (jobOld now maxAge)
    show (s.jobs.filter (jobOld now maxAge)).length +
        (s.jobs.filter (fun j => !jobOld now maxAge j)).length = s.jobs.length
    omega
  · intro hjobs hup hout
    have h1 : s.jobs.filter (fun j => !jobOld now maxAge j) = s.jobs := by
      refine List.filter_eq_self.mpr ?_
      intro j hj
      rw [Bool.not_eq_true']
      cases het : j.end_time with
      | none => simp [jobOld, het]
      | some t =>
        rw [jobOld, het]
        exact decide_eq_false (by have := hjobs j hj t het; omega)
    have h2 : s.upload_files.filter (fun f => !fileOld now maxAge f) = s.upload_files := by
      refine List.filter_eq_self.mpr ?_
      intro f hf
      rw [Bool.not_eq_true', fileOld]
      exact decide_eq_false (by have := hup f hf; omega)
    have h3 : s.output_dir_files.filter (fun f => !fileOld now maxAge f) = s.output_dir_files := by
      refine List.filter_eq_self.mpr ?_
      intro f hf
      rw [Bool.not_eq_true', fileOld]
      exact decide_eq_false (by have := hout f hf; omega)
    show SysState.mk (s.jobs.filter (fun j => !jobOld now maxAge j)) s.job_counter s.history
        (s.upload_files.filter (fun f => !fileOld now maxAge f))
        (s.output_dir_files.filter (fun f => !fileOld now maxAge f)) = s
    rw [h1, h2, h3]

theorem C6_witness :
    (jobW ∈ (cleanup_core sCompleted 300000 0).1.jobs ↔
      (jobW ∈ sCompleted.jobs ∧ ¬((jobW.status = .completed ∨ jobW.status = .failed) ∧
        ∃ t, jobW.end_time = some t ∧ 0 < 300000 - t))) ∧
    ((cleanup_core sCompleted 300000 0).2.2 + (cleanup_core sCompleted 300000 0).1.jobs.length =
      sCompleted.jobs.length) :=
  ⟨(C6_cleanup_exact sCompleted 300000 0 reachable_sCompleted).1 jobW,
   (C6_cleanup_exact sCompleted 300000 0 reachable_sCompleted).2.2.2.2.1⟩

/-- C7 counterexample: the Progress Sink stores whatever value the backend
reports with no range or monotonicity check, so two reports of 50 then 30
on a processing job leave the stored progress decreased.  The claim that
the stored value never decreases across report sequences fails at this
input. -/
theorem C7_counterexample :
    ((findJob sProcessing jidW).map (fun j => j.status) = some .processing) ∧
    ((findJob (progress_callback sProcessing jidW "Transcribing" 50) jidW).map
        (fun j => j.progress) = some 50) ∧
    ((findJob (progress_callback (progress_callback sProcessing jidW "Transcribing" 50)
        jidW "Transcribing" 30) jidW).map (fun j => j.progress) = some 30) := by
  decide

/-- C7 amended: one Progress Sink invocation on a registered job stores
exactly the reported value; consequently the stored progress stays within
0 to 100 and never decreases provided every reported value is within range
and not below the currently stored value. -/
theorem C7_progress_stores_reported (s : SysState) (jid : JobId) (task : String) (p : Int)
    (job : TranscriptionJob) (hfind : findJob s jid = some job) :
    ((findJob (progress_callback s jid task p) jid).map (fun j => j.progress) = some p) ∧
    (0 ≤ p → p ≤ 100 → job.progress ≤ p →
      ∃ j', findJob (progress_callback s jid task p) jid = some j' ∧
        0 ≤ j'.progress ∧ j'.progress ≤ 100 ∧ job.progress ≤ j'.progress) := by
  unfold progress_callback
  rw [if_pos (by simp [hfind])]
  have hup : findJob (updateJob s jid (fun j => { j with progress := p })) jid =
      (findJob s jid).map (fun j => { j with progress := p }) :=
    findJob_updateJob s jid _ (fun j => rfl)
  rw [hup, hfind]
  exact ⟨rfl, fun h1 h2 h3 => ⟨_, rfl, h1, h2, h3⟩⟩

theorem C7_witness :
    ((findJob (progress_callback sProcessing jidW "Converting" 40) jidW).map
        (fun j => j.progress) = some 40) ∧
    ∃ j', findJob (progress_callback sProcessing jidW "Converting" 40) jidW = some j' ∧
      0 ≤ j'.progress ∧ j'.progress ≤ 100 ∧ jobProcessingW.progress ≤ j'.progress :=
  ⟨(C7_progress_stores_reported sProcessing jidW "Converting" 40 jobProcessingW
      (by decide)).1,
   (C7_progress_stores_reported sProcessing jidW "Converting" 40 jobProcessingW
      (by decide)).2 (by decide) (by decide) (by decide)⟩

/-- C8: a Progress Sink invocation whose identifier is not registered (for
example after a mid-flight delete) changes nothing: the state is returned
untouched, and the embedding is a total function, mirroring that the
Python callback only guards with a membership test and cannot raise. -/
theorem C8_progress_unknown_id_noop (s : SysState) (jid : JobId) (task : String) (p : Int)
    (h : findJob s jid = none) : progress_callback s jid task p = s := by
  unfold progress_callback
  rw [if_neg (by simp [h])]

theorem C8_witness :
    progress_callback sCompleted ⟨99, "zzzzzzzz"⟩ "Transcribing" 55 = sCompleted :=
  C8_progress_unknown_id_noop sCompleted ⟨99, "zzzzzzzz"⟩ "Transcribing" 55 (by decide)

/-- C9: in every reachable state, a completed record carries exactly the
two output keys srt_file and txt_file; and the download endpoint on a
completed job with a valid kind serves the path stored under kind_file,
answering 404 when the key is absent and 404 when the stored path no
longer exists on disk. -/
theorem C9_completed_keys_and_download :
    (∀ (s : SysState), Reachable s → ∀ j ∈ s.jobs, j.status = .completed →
      j.output_files.map Prod.fst = ["srt_file", "txt_file"]) ∧
    (∀ (s : SysState) (jid : JobId) (kind : String) (fsExists : String → Bool)
        (job : TranscriptionJob),
      findJob s jid = some job → job.status = .completed →
      (kind = "srt" ∨ kind = "txt") →
      ((lookupOutput job.output_files (kind ++ "_file") = none →
          download_file s jid kind fsExists = (404, none)) ∧
       (∀ path, lookupOutput job.output_files (kind ++ "_file") = some path →
          (fsExists path = true → download_file s jid kind fsExists = (200, some path)) ∧
          (fsExists path = false → download_file s jid kind fsExists = (404, none))))) := by
  constructor
  · intro s hs j hj hc
    obtain ⟨hJ, _, _⟩ := reachable_inv s hs
    exact (hJ j hj).2.2.2 hc
  · intro s jid kind fsExists job hfind hc hkind
    have hvalid : ¬(kind ≠ "srt" ∧ kind ≠ "txt") := by
      rcases hkind with h | h <;> simp [h]
    constructor
    · intro hnone
      unfold download_file
      rw [hfind]
      dsimp only
      rw [if_neg (by simp [hc]), if_neg hvalid, hnone]
    · intro path hsome
      constructor
      · intro hex
        unfold download_file
        rw [hfind]
        dsimp only
        rw [if_neg (by simp [hc]), if_neg hvalid, hsome]
        dsimp only
        rw [if_pos hex]
      · intro hnex
        unfold download_file
        rw [hfind]
        dsimp only
        rw [if_neg (by simp [hc]), if_neg hvalid, hsome]
        dsimp only
        rw [if_neg (by simp [hnex])]

theorem C9_witness :
    jobW.output_files.map Prod.fst = ["srt_file", "txt_file"] ∧
    download_file sCompleted jidW "srt" (fun _ => true) =
      (200, some "outputs/abcd1234_hello.srt") :=
  ⟨C9_completed_keys_and_download.1 sCompleted reachable_sCompleted jobW (by decide)
      (by decide),
   ((C9_completed_keys_and_download.2 sCompleted jidW "srt" (fun _ => true) jobW
      (by decide) (by decide) (Or.inl rfl)).2 "outputs/abcd1234_hello.srt"
      (by decide)).1 rfl⟩

/-- C10: a valid upload whose form omits the engine field is accepted with
engine defaulting to whisper; an omitted language defaults to en and an
omitted model to base (the model value is parsed with its default but not
otherwise used by the handler); and because the engine field is lowercased
before validation, any spelling whose lowercase form is one of the two
engine names is accepted with 202. -/
theorem C10_defaults_and_lowercase (s : SysState) (req : UploadRequest)
    (uuidHex : String) (now : Nat) (hfile : req.hasFile = true)
    (hname : req.filename ≠ "") (hext : allowed_file req.filename = true) :
    (req.engineField = none →
      (transcribe_file s req uuidHex now).code = 202 ∧
      (transcribe_file s req uuidHex now).engineUsed = some "whisper") ∧
    (req.languageField = none →
      (transcribe_file s req uuidHex now).languageUsed = some "en") ∧
    (req.modelField = none →
      (transcribe_file s req uuidHex now).modelUsed = some "base") ∧
    ((strLower (req.engineField.getD "whisper") = "autosub" ∨
      strLower (req.engineField.getD "whisper") = "whisper") →
      (transcribe_file s req uuidHex now).code = 202) := by
  unfold transcribe_file
  rw [if_neg (by simp [hfile]), if_neg hname, if_neg (by simp [hext])]
  dsimp only
  split_ifs with h4
  · refine ⟨?_, fun hl => by rw [hl]; rfl, fun hm => by rw [hm]; rfl, ?_⟩
    · intro he
      rw [he] at h4
      exact absurd (by decide : strLower ((none : Option String).getD "whisper") = "whisper")
        h4.2
    · intro hval
      rcases hval with hval | hval
      · exact absurd hval h4.1
      · exact absurd hval h4.2
  · exact ⟨fun he => ⟨rfl, by rw [he]; rfl⟩, fun hl => by rw [hl]; rfl,
      fun hm => by rw [hm]; rfl, fun _ => rfl⟩

/-- A valid upload request with every optional form field omitted. -/
def reqC10 : UploadRequest := ⟨true, "talk.wav", none, none, none⟩

theorem C10_witness :
    ((transcribe_file initState reqC10 "u2" 7).code = 202 ∧
     (transcribe_file initState reqC10 "u2" 7).engineUsed = some "whisper") ∧
    ((transcribe_file initState reqC10 "u2" 7).languageUsed = some "en") ∧
    ((transcribe_file initState reqC10 "u2" 7).modelUsed = some "base") ∧
    ((transcribe_file initState reqC4 "u3" 8).code = 202) :=
  ⟨(C10_defaults_and_lowercase initState reqC10 "u2" 7 rfl (by decide) (by decide)).1 rfl,
   (C10_defaults_and_lowercase initState reqC10 "u2" 7 rfl (by decide) (by decide)).2.1 rfl,
   (C10_defaults_and_lowercase initState reqC10 "u2" 7 rfl (by decide) (by decide)).2.2.1 rfl,
   (C10_defaults_and_lowercase initState reqC4 "u3" 8 rfl (by decide) (by decide)).2.2.2
     (Or.inr (by decide))⟩

end PyTranscriber